import Mathlib

/-
Verification of the HDR exposure-bracketing acquisition samples
(PylonSample_HDR_OpenCV_Advanced.cpp and PylonSample_HDR_OpenCV_Simple.cpp).

The development shallowly embeds the two grab loops, the sequencer setup,
the bracket assembly performed by the loops, and the CreateHDR fusion stage.
Exposure times (C++ double) are modelled as rationals; image pixel data as
lists of natural numbers (bytes).
-/

namespace HDR

/-! ## Data model

Pixel formats: the samples convert every incoming image to BGR8packed
(PixelType_BGR8packed) before fusion; raw frames may arrive as Mono8. -/

inductive PixFmt where
  | Mono8 : PixFmt
  | BGR8 : PixFmt
deriving DecidableEq

/-- One image buffer: dimensions, pixel format and the raw byte data
(Pylon CPylonImage / OpenCV Mat, flattened). -/
structure Image where
  width : Nat
  height : Nat
  pixelFormat : PixFmt
  data : List Nat
deriving DecidableEq

/-- A delivered grab result: either a good frame (GrabSucceeded() true,
carrying the image) or a failed one (carrying the error code). -/
inductive GrabRes where
  | ok (f : Image) : GrabRes
  | err (code : Nat) : GrabRes
deriving DecidableEq

/-- Outcome of one RetrieveResult call: a delivered grab result, or a
timeout (which the samples turn into a thrown exception via
TimeoutHandling_ThrowException). -/
inductive RetrOutcome where
  | res (g : GrabRes) : RetrOutcome
  | timeout : RetrOutcome
deriving DecidableEq

/-- Number of individual images per HDR image (both samples, c_imagesPerHDR). -/
def c_imagesPerHDR : Nat := 3

/-- Lowest exposure time used for HDR, in microseconds (c_lowExposureTime). -/
def c_lowExposureTime : ℚ := 100

/-- Highest exposure time used for HDR, in microseconds (c_highExposureTime). -/
def c_highExposureTime : ℚ := 100000

/-- Number of individual images grabbed before shutting down
(c_countOfImagesToGrab). -/
def c_countOfImagesToGrab : Nat := 1000

/-! ## FusionEngine: CreateHDR (Advanced lines 87-125, Simple lines 196-227)

CreateHDR converts every stored image to the BGR8 OpenCV format, hands the
converted stack to OpenCV's MergeMertens exposure fusion, and rescales the
normalized floating-point result by 255 into an 8-bit image.  The AlignMTB
registration step is present in the source but commented out, so alignment
is permanently disabled. -/

/-- Pixel-format conversion performed by Pylon's CImageFormatConverter with
OutputPixelFormat = BGR8packed: BGR8 data is passed through, Mono8 data is
expanded to three identical channels per pixel. -/
def convertToBGR8 (img : Image) : Image :=
  match img.pixelFormat with
  | PixFmt.BGR8 => img
  | PixFmt.Mono8 =>
      { width := img.width, height := img.height, pixelFormat := PixFmt.BGR8,
        data := img.data.flatMap (fun v => [v, v, v]) }

/-- Modelled from the spec: per-pixel weight of the external MergeMertens
fusion collaborator, favouring well-exposed mid-tone values (the spec fixes
only the contract: a deterministic per-pixel, per-exposure weight). -/
def mertensWeight (v : Nat) : Int :=
  (v : Int) * (255 - (v : Int)) + 1

/-- Modelled from the spec: blended byte value at data index i across the
exposure stack, already including the final convertTo(CV_8UC3, 255)
rescaling of the normalized radiance value (the integer quotient is the
floor of the nonnegative weighted mean). -/
def fuseAt (imgs : List Image) (i : Nat) : Nat :=
  let vals := imgs.map (fun im => im.data.getD i 0)
  let wsum := (vals.map (fun v => mertensWeight v)).sum
  let acc := (vals.map (fun v => mertensWeight v * (v : Int))).sum
  (acc / wsum).toNat

/-- Modelled from the spec: the external fusion-algorithm collaborator
(section 6: pure function fuse(images, align) -> PixelBuffer; section 4.4
weight/blend/tone-map sketch).  The OpenCV implementation is not part of
this repository; the output geometry follows the first input image, as in
cv::MergeMertens::process. -/
def mergeMertensProcess (imgs : List Image) : Image :=
  match imgs.head? with
  | none => { width := 0, height := 0, pixelFormat := PixFmt.BGR8, data := [] }
  | some h =>
      { width := h.width, height := h.height, pixelFormat := PixFmt.BGR8,
        data := (List.range h.data.length).map (fuseAt imgs) }

/-- CreateHDR (Advanced lines 87-125; the same inline code at Simple lines
196-227): convert every stored image to BGR8, fuse, rescale.  Note the
source performs no validation whatsoever on the bracket: no minimum size
check and no format/dimension homogeneity check. -/
def CreateHDR (images : List Image) : Image :=
  mergeMertensProcess (images.map convertToBGR8)

/-! ## FrameSetAssembler: the bracket-assembly slice of both grab loops
(Advanced lines 248-288, Simple lines 159-227).

On a successful grab result the image is appended to the `images` vector;
on a failed one the error is only printed and the vector is untouched.
After either branch the loop checks `images.size() == c_imagesPerHDR` and,
when the bracket is complete, hands it on and clears the vector. -/

/-- The append performed in the GrabSucceeded branch (`images.push_back`):
failed results do not occupy a bracket slot. -/
def ingestPush (images : List Image) (g : GrabRes) : List Image :=
  match g with
  | GrabRes.ok f => images ++ [f]
  | GrabRes.err _ => images

/-- One ingest step of the assembler: push on success, drop on failure,
then the completion check `images.size() == c_imagesPerHDR`: on completion
the bracket is handed out and the active vector is cleared. -/
def ingest (N : Nat) (images : List Image) (g : GrabRes) :
    List Image × Option (List Image) :=
  let p := ingestPush images g
  if p.length = N then (([] : List Image), some p) else (p, none)

/-- Folding a stream of grab results through the assembler, collecting the
completed brackets in order. -/
def runIngestAux (N : Nat) : List GrabRes → List Image → List Image × List (List Image)
  | [], images => (images, [])
  | g :: s, images =>
      let p := ingest N images g
      let r := runIngestAux N s p.1
      (r.1, match p.2 with
            | some br => br :: r.2
            | none => r.2)

/-- Number of successful results in a stream. -/
def countOk : List GrabRes → Nat
  | [] => 0
  | GrabRes.ok _ :: s => countOk s + 1
  | GrabRes.err _ :: s => countOk s

/-- Number of failed results in a stream. -/
def countErr : List GrabRes → Nat
  | [] => 0
  | GrabRes.ok _ :: s => countErr s
  | GrabRes.err _ :: s => countErr s + 1

/-- The frames of the successful results of a stream, in arrival order. -/
def okFrames : List GrabRes → List Image
  | [] => []
  | GrabRes.ok f :: s => f :: okFrames s
  | GrabRes.err _ :: s => okFrames s

/-! ## Concrete test images used by witnesses -/

/-- A 1x1 BGR8 test image. -/
def testImgA : Image := { width := 1, height := 1, pixelFormat := PixFmt.BGR8, data := [0, 128, 255] }

/-- A second 1x1 BGR8 test image. -/
def testImgB : Image := { width := 1, height := 1, pixelFormat := PixFmt.BGR8, data := [10, 20, 30] }

/-- A 1x1 Mono8 test image. -/
def testImgC : Image := { width := 1, height := 1, pixelFormat := PixFmt.Mono8, data := [7] }

/-! ## Assembler lemmas -/

lemma ingest_err_of_lt {N : Nat} {images : List Image} (h : images.length < N) (e : Nat) :
    ingest N images (GrabRes.err e) = (images, none) := by
  simp [ingest, ingestPush, Nat.ne_of_lt h]

lemma countOk_zero_no_complete (N : Nat) :
    ∀ (s : List GrabRes) (acc : List Image), countOk s = 0 → acc.length < N →
      runIngestAux N s acc = (acc, []) := by
  intro s
  induction s with
  | nil => intro acc _ _; rfl
  | cons g t ih =>
      intro acc h hl
      cases g with
      | ok f => simp [countOk] at h
      | err e =>
          simp only [countOk] at h
          simp only [runIngestAux, ingest_err_of_lt hl]
          rw [ih acc h hl]

lemma countOk_zero_okFrames : ∀ {s : List GrabRes}, countOk s = 0 → okFrames s = [] := by
  intro s
  induction s with
  | nil => intro _; rfl
  | cons g t ih =>
      intro h
      cases g with
      | ok f => simp [countOk] at h
      | err e => simp only [countOk] at h; simpa [okFrames] using ih h

lemma runIngest_exact (N : Nat) :
    ∀ (s : List GrabRes) (acc : List Image),
      acc.length < N → acc.length + countOk s = N →
      runIngestAux N s acc = ([], [acc ++ okFrames s]) := by
  intro s
  induction s with
  | nil =>
      intro acc h1 h2
      simp only [countOk] at h2
      omega
  | cons g t ih =>
      intro acc h1 h2
      cases g with
      | err e =>
          simp only [countOk] at h2
          simp only [runIngestAux, ingest_err_of_lt h1]
          rw [ih acc h1 h2]
          simp [okFrames]
      | ok f =>
          simp only [countOk] at h2
          by_cases hc : acc.length + 1 = N
          · have hi : ingest N acc (GrabRes.ok f) = ([], some (acc ++ [f])) := by
              simp [ingest, ingestPush, hc]
            have ht : countOk t = 0 := by omega
            simp only [runIngestAux, hi]
            rw [countOk_zero_no_complete N t [] ht
                  (by simp only [List.length_nil]; omega)]
            simp [okFrames, countOk_zero_okFrames ht]
          · have hi : ingest N acc (GrabRes.ok f) = (acc ++ [f], none) := by
              have hlen : ¬((acc ++ [f]).length = N) := by simp; omega
              simp only [ingest, ingestPush]
              rw [if_neg hlen]
            simp only [runIngestAux, hi]
            rw [ih (acc ++ [f]) (by simp; omega) (by simp; omega)]
            simp [okFrames]

/-! ## Claims about the assembler -/

/-- Claim C1: whenever the assembler signals completion it hands out a
bracket of exactly N frames; the appended vector never exceeds N between
ingests, and the retained active bracket stays strictly below N. -/
theorem bracket_complete_exactly_N (N : Nat) (images : List Image) (g : GrabRes)
    (h : images.length < N) :
    (ingestPush images g).length ≤ N ∧
    (ingest N images g).1.length < N ∧
    (∀ b, (ingest N images g).2 = some b → b.length = N) := by
  have hp : (ingestPush images g).length ≤ N := by
    cases g <;> simp [ingestPush] <;> omega
  refine ⟨hp, ?_, ?_⟩
  · by_cases hc : (ingestPush images g).length = N
    · simp only [ingest, hc, if_pos rfl]
      simpa using Nat.lt_of_le_of_lt (Nat.zero_le _) h
    · simp only [ingest, if_neg hc]
      omega
  · intro b hb
    by_cases hc : (ingestPush images g).length = N
    · simp only [ingest, hc, if_pos rfl] at hb
      cases hb
      exact hc
    · simp [ingest, if_neg hc] at hb

/-- Witness for C1 at a concrete two-frame active bracket and a successful
third frame, with N = 3. -/
theorem bracket_complete_exactly_N_witness :
    ([testImgA, testImgB].length < 3) ∧
    ((ingestPush [testImgA, testImgB] (GrabRes.ok testImgC)).length ≤ 3 ∧
     (ingest 3 [testImgA, testImgB] (GrabRes.ok testImgC)).1.length < 3 ∧
     (∀ b, (ingest 3 [testImgA, testImgB] (GrabRes.ok testImgC)).2 = some b → b.length = 3)) :=
  ⟨by decide, bracket_complete_exactly_N 3 [testImgA, testImgB] (GrabRes.ok testImgC) (by decide)⟩

/-- Claim C3: a failed grab result is never appended to the active bracket
(it is dropped without signalling completion), and a stream holding exactly
N successful results interleaved with at most N-1 failed ones yields exactly
one completed bracket, namely the N successful frames in arrival order. -/
theorem failed_dropped_and_one_complete (N : Nat) (s : List GrabRes)
    (hN : 0 < N) (hok : countOk s = N) (_herr : countErr s ≤ N - 1) :
    (∀ (images : List Image) (e : Nat), images.length < N →
        ingest N images (GrabRes.err e) = (images, none)) ∧
    (runIngestAux N s []).2 = [okFrames s] := by
  refine ⟨fun images e h => ingest_err_of_lt h e, ?_⟩
  rw [runIngest_exact N s [] (by simpa using hN) (by simpa using hok)]
  simp

/-- Witness for C3: N = 3, three successes interleaved with two failures. -/
theorem failed_dropped_and_one_complete_witness :
    (0 < 3) ∧
    countOk [GrabRes.ok testImgA, GrabRes.err 9, GrabRes.ok testImgB,
             GrabRes.err 9, GrabRes.ok testImgC] = 3 ∧
    countErr [GrabRes.ok testImgA, GrabRes.err 9, GrabRes.ok testImgB,
              GrabRes.err 9, GrabRes.ok testImgC] ≤ 3 - 1 ∧
    ((∀ (images : List Image) (e : Nat), images.length < 3 →
        ingest 3 images (GrabRes.err e) = (images, none)) ∧
     (runIngestAux 3 [GrabRes.ok testImgA, GrabRes.err 9, GrabRes.ok testImgB,
                      GrabRes.err 9, GrabRes.ok testImgC] []).2 =
       [okFrames [GrabRes.ok testImgA, GrabRes.err 9, GrabRes.ok testImgB,
                  GrabRes.err 9, GrabRes.ok testImgC]]) :=
  ⟨by decide, by decide, by decide,
   failed_dropped_and_one_complete 3 _ (by decide) (by decide) (by decide)⟩

/-- A stream beginning one partial bracket and then more than N = 3
consecutive failed results. -/
def scriptC4 : List GrabRes :=
  [GrabRes.ok testImgA, GrabRes.err 1, GrabRes.err 1, GrabRes.err 1, GrabRes.err 1]

/-- Claim C4 counterexample: after more than N consecutive failed ingests
the partial bracket is NOT discarded (it still holds the previously
appended frame) and nothing is signalled for it: the grab loops have no
Reset path at all, contradicting the claimed discard-and-Reset behaviour. -/
theorem no_reset_counterexample :
    (runIngestAux 3 scriptC4 []).1 = [testImgA] ∧
    (runIngestAux 3 scriptC4 []).2 = [] := by
  decide

/-- Claim C4 amended: the assembler performs no failure-count tracking:
any number of consecutive failed ingests leaves the active partial bracket
exactly as it was, and no bracket (completed or reset) is ever signalled by
them; the loop simply keeps waiting for further successful frames. -/
theorem failed_ingests_leave_bracket (N k e : Nat) (images : List Image)
    (h : images.length < N) :
    runIngestAux N (List.replicate k (GrabRes.err e)) images = (images, []) := by
  induction k with
  | zero => rfl
  | succ n ih =>
      simp only [List.replicate_succ, runIngestAux, ingest_err_of_lt h]
      rw [ih]

/-- Witness for the amended C4: a one-frame partial bracket survives four
consecutive failures unchanged, with N = 3. -/
theorem failed_ingests_leave_bracket_witness :
    ([testImgA].length < 3) ∧
    runIngestAux 3 (List.replicate 4 (GrabRes.err 1)) [testImgA] = ([testImgA], []) :=
  ⟨by decide, failed_ingests_leave_bracket 3 4 1 [testImgA] (by decide)⟩

/-! ## SequenceProgram: sequencer setup (Advanced lines 153-205)

The Advanced sample computes `c_exposureTimeIncrement = (high - low) / N`
and then configures sequencer sets 0..N-1: set 0 gets the low exposure, set
N-1 gets the high exposure written directly, every other set gets the
camera's current ExposureTime register (read back with GetValue) plus the
increment; SequencerSetNext is 0 for the last set and i+1 otherwise. -/

/-- One entry of the device-resident exposure program. -/
structure ExposureStep where
  index : Nat
  exposureTime : ℚ
  successor : Nat
deriving DecidableEq

/-- The sequencer configuration loop; `reg` is the camera's ExposureTime
register (each iteration writes it exactly once, and the intermediate steps
read it back), `k` the number of remaining iterations and `i` the current
sequencer set index. -/
def seqSetupGo (N : Nat) (low high inc : ℚ) : Nat → Nat → ℚ → List ExposureStep
  | 0, _, _ => []
  | k + 1, i, reg =>
      let e := if i = 0 then low else if i = N - 1 then high else reg + inc
      { index := i, exposureTime := e,
        successor := if i = N - 1 then 0 else i + 1 } ::
        seqSetupGo N low high inc k (i + 1) e

/-- The full sequencer setup (Advanced lines 153-196).  The initial
register value is irrelevant because set 0 writes the low exposure
unconditionally; it is passed as 0 here. -/
def seqSetup (N : Nat) (low high : ℚ) : List ExposureStep :=
  seqSetupGo N low high ((high - low) / (N : ℚ)) N 0 0

/-- Closed form of the exposure written for sequencer set i. -/
def cfExp (N : Nat) (low high inc : ℚ) (i : Nat) : ℚ :=
  if i = 0 then low else if i = N - 1 then high else low + (i : ℚ) * inc

/-- Closed form of the successor written for sequencer set i. -/
def cfSucc (N i : Nat) : Nat :=
  if i = N - 1 then 0 else i + 1

/-- Exposure time of step i of the built program (0 when out of range). -/
def stepExpAt (N : Nat) (low high : ℚ) (i : Nat) : ℚ :=
  (((seqSetup N low high)[i]?).map ExposureStep.exposureTime).getD 0

/-- Successor index of step i of the built program (0 when out of range). -/
def stepSuccAt (N : Nat) (low high : ℚ) (i : Nat) : Nat :=
  (((seqSetup N low high)[i]?).map ExposureStep.successor).getD 0

/-! ## Sequencer lemmas -/

lemma seqSetupGo_length (N : Nat) (low high inc : ℚ) :
    ∀ (k i : Nat) (reg : ℚ), (seqSetupGo N low high inc k i reg).length = k := by
  intro k
  induction k with
  | zero => intro i reg; rfl
  | succ n ih => intro i reg; simp [seqSetupGo, ih]

lemma cfExp_mid (N : Nat) (low high inc : ℚ) (i : Nat) (h : i + 1 < N) :
    cfExp N low high inc i = low + (i : ℚ) * inc := by
  have hl : i ≠ N - 1 := by omega
  by_cases h0 : i = 0
  · simp [cfExp, h0]
  · simp [cfExp, h0, hl]

lemma seqSetupGo_getElem? (N : Nat) (low high inc : ℚ) :
    ∀ (k i : Nat) (reg : ℚ), i + k = N →
      (i ≠ 0 → i < N → reg = low + ((i : ℚ) - 1) * inc) →
      ∀ t, (seqSetupGo N low high inc k i reg)[t]? =
        if t < k then
          some { index := i + t, exposureTime := cfExp N low high inc (i + t),
                 successor := cfSucc N (i + t) }
        else none := by
  intro k
  induction k with
  | zero =>
      intro i reg _ _ t
      simp [seqSetupGo]
  | succ n ih =>
      intro i reg hik hreg t
      have hiN : i < N := by omega
      have he : (if i = 0 then low else if i = N - 1 then high else reg + inc) =
          cfExp N low high inc i := by
        by_cases h0 : i = 0
        · simp [cfExp, h0]
        · by_cases hl : i = N - 1
          · simp [cfExp, h0, hl]
          · rw [hreg h0 hiN]
            simp only [cfExp, if_neg h0, if_neg hl]
            ring
      cases t with
      | zero =>
          simp only [seqSetupGo, List.getElem?_cons_zero, Nat.zero_lt_succ, if_pos]
          rw [he]
          simp [cfSucc]
      | succ m =>
          have hreg2 : (i + 1) ≠ 0 → (i + 1) < N →
              (if i = 0 then low else if i = N - 1 then high else reg + inc) =
                low + ((↑(i + 1) : ℚ) - 1) * inc := by
            intro _ h2
            rw [he, cfExp_mid N low high inc i h2]
            push_cast
            ring
          have hrec := ih (i + 1)
            (if i = 0 then low else if i = N - 1 then high else reg + inc)
            (by omega) hreg2 m
          simp only [seqSetupGo, List.getElem?_cons_succ]
          rw [hrec]
          have harith : i + 1 + m = i + (m + 1) := by omega
          by_cases hm : m < n
          · rw [if_pos hm, if_pos (by omega)]
            rw [harith]
          · rw [if_neg hm, if_neg (by omega)]

lemma seqSetup_getElem? (N : Nat) (low high : ℚ) (t : Nat) :
    (seqSetup N low high)[t]? =
      if t < N then
        some { index := t, exposureTime := cfExp N low high ((high - low) / (N : ℚ)) t,
               successor := cfSucc N t }
      else none := by
  have h := seqSetupGo_getElem? N low high ((high - low) / (N : ℚ)) N 0 0
    (by omega) (fun h0 _ => absurd rfl h0) t
  simpa using h

lemma stepExpAt_eq_cf (N : Nat) (low high : ℚ) (t : Nat) (ht : t < N) :
    stepExpAt N low high t = cfExp N low high ((high - low) / (N : ℚ)) t := by
  simp [stepExpAt, seqSetup_getElem?, ht]

/-! ## Claims about the sequencer -/

/-- Claim C2: for bracket size N at least 2 and high above low, the built
sequence program has exactly N steps; step 0 carries the low bound, step
N-1 the high bound written directly; every intermediate step adds the
increment (high - low)/N to its predecessor; the exposure values are
strictly increasing; and every step's successor is (i+1) mod N, closing the
cycle back to step 0. -/
theorem seqProgram_build_correct (N : Nat) (low high : ℚ)
    (hN : 2 ≤ N) (hlh : low < high) :
    (seqSetup N low high).length = N ∧
    stepExpAt N low high 0 = low ∧
    stepExpAt N low high (N - 1) = high ∧
    (∀ i, 1 ≤ i → i + 1 < N →
        stepExpAt N low high i = stepExpAt N low high (i - 1) + (high - low) / (N : ℚ)) ∧
    (∀ i j, i < j → j < N → stepExpAt N low high i < stepExpAt N low high j) ∧
    (∀ i, i < N → stepSuccAt N low high i = (i + 1) % N) := by
  set inc := (high - low) / (N : ℚ) with hinc
  have hN0 : (0 : ℚ) < (N : ℚ) := by positivity
  have hNne : (N : ℚ) ≠ 0 := ne_of_gt hN0
  have hincpos : 0 < inc := by
    rw [hinc]
    exact div_pos (sub_pos.2 hlh) hN0
  have hNinc : (N : ℚ) * inc = high - low := by
    rw [hinc]
    field_simp
  have hcf_lt_high : ∀ i : Nat, i + 1 < N → low + (i : ℚ) * inc < high := by
    intro i hi
    have hcast : (i : ℚ) ≤ (N : ℚ) - 2 := by
      have : (i : Nat) ≤ N - 2 := by omega
      have h2 : ((N - 2 : Nat) : ℚ) = (N : ℚ) - 2 := by
        push_cast [Nat.cast_sub (by omega : 2 ≤ N)]
        ring
      calc (i : ℚ) ≤ ((N - 2 : Nat) : ℚ) := by exact_mod_cast this
        _ = (N : ℚ) - 2 := h2
    have h1 : (i : ℚ) * inc ≤ ((N : ℚ) - 2) * inc :=
      mul_le_mul_of_nonneg_right hcast (le_of_lt hincpos)
    have h2 : ((N : ℚ) - 2) * inc = (high - low) - 2 * inc := by
      rw [sub_mul, hNinc]
    nlinarith
  refine ⟨seqSetupGo_length N low high inc N 0 0, ?_, ?_, ?_, ?_, ?_⟩
  · rw [stepExpAt_eq_cf N low high 0 (by omega)]
    simp [cfExp]
  · rw [stepExpAt_eq_cf N low high (N - 1) (by omega)]
    simp only [cfExp]
    rw [if_neg (by omega : ¬(N - 1 = 0))]
    simp
  · intro i h1 h2
    rw [stepExpAt_eq_cf N low high i (by omega),
        stepExpAt_eq_cf N low high (i - 1) (by omega),
        cfExp_mid N low high inc i h2, cfExp_mid N low high inc (i - 1) (by omega)]
    have hcast : ((i - 1 : Nat) : ℚ) = (i : ℚ) - 1 := by
      push_cast [Nat.cast_sub (by omega : 1 ≤ i)]
      ring
    rw [hcast]
    ring
  · intro i j hij hjN
    rw [stepExpAt_eq_cf N low high i (by omega), stepExpAt_eq_cf N low high j hjN]
    by_cases hj : j = N - 1
    · have hi1 : i + 1 < N := by omega
      rw [cfExp_mid N low high inc i hi1]
      have : cfExp N low high inc j = high := by
        simp only [cfExp, hj]
        rw [if_neg (by omega : ¬(N - 1 = 0))]
        simp
      rw [this]
      exact hcf_lt_high i hi1
    · rw [cfExp_mid N low high inc i (by omega), cfExp_mid N low high inc j (by omega)]
      have : (i : ℚ) < (j : ℚ) := by exact_mod_cast hij
      nlinarith
  · intro i hiN
    have : stepSuccAt N low high i = cfSucc N i := by
      simp [stepSuccAt, seqSetup_getElem?, hiN]
    rw [this]
    by_cases hl : i = N - 1
    · have h1 : cfSucc N i = 0 := by simp [cfSucc, hl]
      rw [h1, (by omega : i + 1 = N), Nat.mod_self]
    · simp [cfSucc, hl, Nat.mod_eq_of_lt (by omega : i + 1 < N)]

/-- Witness for C2 at the sample's constants N = 3, low = 100 µs,
high = 100000 µs. -/
theorem seqProgram_build_correct_witness :
    (2 ≤ c_imagesPerHDR) ∧ (c_lowExposureTime < c_highExposureTime) ∧
    ((seqSetup c_imagesPerHDR c_lowExposureTime c_highExposureTime).length = c_imagesPerHDR ∧
     stepExpAt c_imagesPerHDR c_lowExposureTime c_highExposureTime 0 = c_lowExposureTime ∧
     stepExpAt c_imagesPerHDR c_lowExposureTime c_highExposureTime (c_imagesPerHDR - 1) =
       c_highExposureTime ∧
     (∀ i, 1 ≤ i → i + 1 < c_imagesPerHDR →
         stepExpAt c_imagesPerHDR c_lowExposureTime c_highExposureTime i =
           stepExpAt c_imagesPerHDR c_lowExposureTime c_highExposureTime (i - 1) +
             (c_highExposureTime - c_lowExposureTime) / (c_imagesPerHDR : ℚ)) ∧
     (∀ i j, i < j → j < c_imagesPerHDR →
         stepExpAt c_imagesPerHDR c_lowExposureTime c_highExposureTime i <
           stepExpAt c_imagesPerHDR c_lowExposureTime c_highExposureTime j) ∧
     (∀ i, i < c_imagesPerHDR →
         stepSuccAt c_imagesPerHDR c_lowExposureTime c_highExposureTime i =
           (i + 1) % c_imagesPerHDR)) :=
  ⟨by norm_num [c_imagesPerHDR], by norm_num [c_lowExposureTime, c_highExposureTime],
   seqProgram_build_correct c_imagesPerHDR c_lowExposureTime c_highExposureTime
     (by norm_num [c_imagesPerHDR])
     (by norm_num [c_lowExposureTime, c_highExposureTime])⟩

/-- Claim C6 counterexample: called with bracket size N = 1 (violating the
claimed N ≥ 2 precondition) the sequencer setup does not fail with
ConfigurationError: the source contains no parameter validation at all and
produces a one-step program. -/
theorem build_no_validation_counterexample :
    (1 < 2) ∧
    seqSetup 1 c_lowExposureTime c_highExposureTime =
      [{ index := 0, exposureTime := c_lowExposureTime, successor := 0 }] := by
  constructor
  · omega
  · rfl

/-- Claim C6 amended: the sequencer setup performs no validation of the
bracket size or the exposure bounds; for every N, low and high (including
N < 2 and high at or below low) it succeeds and produces exactly N steps.  -/
theorem build_succeeds_for_all_params (N : Nat) (low high : ℚ) :
    (seqSetup N low high).length = N :=
  seqSetupGo_length N low high ((high - low) / (N : ℚ)) N 0 0

/-! ## The Advanced grab loop (lines 236-289)

The loop retrieves grab results from the grab engine.  A successful result
is appended to the bracket; a failed one is only logged.  When the bracket
reaches c_imagesPerHDR images the loop first sends the next burst trigger
(one FrameBurstStart trigger acquires a whole bracket) and then fuses and
clears the bracket.  RetrieveResult uses TimeoutHandling_ThrowException, so
a timeout throws; the exception is caught at the bottom of main, which
prints the description and sets the exit code to 1. -/

/-- Observable events of a run: software trigger (TriggerSoftware.Execute),
successful retrieval, failed retrieval, CreateHDR invocation, timeout. -/
inductive Ev where
  | trig : Ev
  | grab : Ev
  | fail : Ev
  | fuse : Ev
  | tmo : Ev
deriving DecidableEq

/-- Number of occurrences of an event in a trace. -/
def countEv (e : Ev) : List Ev → Nat
  | [] => 0
  | x :: t => (if x = e then 1 else 0) + countEv e t

/-- The trace event of retrieving a grab result. -/
def evOf : GrabRes → Ev
  | GrabRes.ok _ => Ev.grab
  | GrabRes.err _ => Ev.fail

/-- Result of a run of the Advanced sample. -/
structure AdvResult where
  exitCode : Nat
  errorReported : Bool
  fused : List Image
  trace : List Ev
deriving DecidableEq

/-- Assembling one loop iteration's result from the completion check: on a
completed bracket the loop sends the next trigger (line 275) and then fuses
(line 280); otherwise it just records the retrieval. -/
def advStepResult (ev : Ev) (comp : Option (List Image)) (r : AdvResult) : AdvResult :=
  match comp with
  | some br =>
      { exitCode := r.exitCode, errorReported := r.errorReported,
        fused := CreateHDR br :: r.fused,
        trace := ev :: Ev.trig :: Ev.fuse :: r.trace }
  | none =>
      { exitCode := r.exitCode, errorReported := r.errorReported,
        fused := r.fused, trace := ev :: r.trace }

/-- The Advanced grab loop.  `budget` is the remaining grab budget
(StartGrabbing(c_countOfImagesToGrab) stops the grab engine after that many
delivered results, ending the loop cleanly); `script` is the sequence of
RetrieveResult outcomes the device produces.  A timeout outcome - or a
device that never delivers anything further - makes RetrieveResult throw;
main catches, reports the description and exits with code 1. -/
def advLoop (N : Nat) : Nat → List RetrOutcome → List Image → AdvResult
  | 0, _, _ => { exitCode := 0, errorReported := false, fused := [], trace := [] }
  | _ + 1, [], _ => { exitCode := 1, errorReported := true, fused := [], trace := [Ev.tmo] }
  | _ + 1, RetrOutcome.timeout :: _, _ =>
      { exitCode := 1, errorReported := true, fused := [], trace := [Ev.tmo] }
  | b + 1, RetrOutcome.res g :: s, images =>
      advStepResult (evOf g) (ingest N images g).2 (advLoop N b s (ingest N images g).1)

/-- A full acquisition run of the Advanced sample: StartGrabbing, the
kickoff software trigger (line 239), then the grab loop. -/
def advancedRun (N budget : Nat) (script : List RetrOutcome) : AdvResult :=
  let r := advLoop N budget script []
  { r with trace := Ev.trig :: r.trace }

/-- The grab results actually delivered in a script (timeouts carry none). -/
def grabsOf : List RetrOutcome → List GrabRes
  | [] => []
  | RetrOutcome.res g :: t => g :: grabsOf t
  | RetrOutcome.timeout :: t => grabsOf t

/-! ## Trace-shape predicates -/

/-- Adjacent-pair discipline: `pairsOk p t` checks p on every adjacent pair. -/
def pairsOk (p : Ev → Ev → Bool) : List Ev → Bool
  | a :: b :: t => p a b && pairsOk p (b :: t)
  | _ => true

/-- Every trigger is immediately followed by a fusion. -/
def pTrigThenFuse : Ev → Ev → Bool
  | Ev.trig, Ev.fuse => true
  | Ev.trig, _ => false
  | _, _ => true

/-- Every fusion is immediately preceded by a trigger. -/
def pFuseAfterTrig : Ev → Ev → Bool
  | Ev.trig, Ev.fuse => true
  | _, Ev.fuse => false
  | _, _ => true

/-- Every trigger is immediately preceded by a retrieval event. -/
def pResultThenTrig : Ev → Ev → Bool
  | Ev.grab, Ev.trig => true
  | Ev.fail, Ev.trig => true
  | _, Ev.trig => false
  | _, _ => true

/-- The trace neither starts with a trigger nor with a fusion. -/
def headNotTrigFuse : List Ev → Bool
  | Ev.trig :: _ => false
  | Ev.fuse :: _ => false
  | _ => true

lemma pairsOk_cons (p : Ev → Ev → Bool) (a : Ev) (t : List Ev)
    (h : pairsOk p t = true) (h2 : ∀ b t2, t = b :: t2 → p a b = true) :
    pairsOk p (a :: t) = true := by
  cases t with
  | nil => rfl
  | cons b t2 => simp [pairsOk, h2 b t2 rfl, h]

/-- Key trace invariant of the Advanced grab loop: triggers and fusions come
in adjacent pairs, preceded by the retrieval that completed the bracket, in
equal numbers, and the loop trace never starts with a trigger or fusion. -/
lemma advLoop_trace_inv (N : Nat) :
    ∀ (script : List RetrOutcome) (budget : Nat) (images : List Image),
      pairsOk pTrigThenFuse (advLoop N budget script images).trace = true ∧
      pairsOk pFuseAfterTrig (advLoop N budget script images).trace = true ∧
      pairsOk pResultThenTrig (advLoop N budget script images).trace = true ∧
      countEv Ev.trig (advLoop N budget script images).trace =
        countEv Ev.fuse (advLoop N budget script images).trace ∧
      headNotTrigFuse (advLoop N budget script images).trace = true := by
  intro script
  induction script with
  | nil =>
      intro budget images
      cases budget <;>
        simp [advLoop, pairsOk, countEv, headNotTrigFuse]
  | cons o s ih =>
      intro budget images
      cases budget with
      | zero => simp [advLoop, pairsOk, countEv, headNotTrigFuse]
      | succ b =>
          cases o with
          | timeout => simp [advLoop, pairsOk, countEv, headNotTrigFuse]
          | res g =>
              obtain ⟨ih1, ih2, ih3, ih4, ih5⟩ := ih b (ingest N images g).1
              have hev : evOf g = Ev.grab ∨ evOf g = Ev.fail := by
                cases g <;> simp [evOf]
              rcases hp : (ingest N images g).2 with _ | br
              all_goals
                simp only [advLoop, advStepResult, hp]
              · -- no completion: trace is evOf g :: recursive trace
                refine ⟨?_, ?_, ?_, ?_, ?_⟩
                · refine pairsOk_cons _ _ _ ih1 ?_
                  intro x t2 hx
                  rcases hev with h | h <;> rw [h] <;> cases x <;>
                    simp_all [pTrigThenFuse, headNotTrigFuse]
                · refine pairsOk_cons _ _ _ ih2 ?_
                  intro x t2 hx
                  rcases hev with h | h <;> rw [h] <;> cases x <;>
                    simp_all [pFuseAfterTrig, headNotTrigFuse]
                · refine pairsOk_cons _ _ _ ih3 ?_
                  intro x t2 hx
                  rcases hev with h | h <;> rw [h] <;> cases x <;>
                    simp_all [pResultThenTrig, headNotTrigFuse]
                · rcases hev with h | h <;> rw [h] <;> simp [countEv, ih4]
                · rcases hev with h | h <;> rw [h] <;> simp [headNotTrigFuse]
              · -- completion: trace is evOf g :: trig :: fuse :: recursive trace
                refine ⟨?_, ?_, ?_, ?_, ?_⟩
                · refine pairsOk_cons _ _ _ ?_ ?_
                  · refine pairsOk_cons _ _ _ ?_ ?_
                    · refine pairsOk_cons _ _ _ ih1 ?_
                      intro x t2 hx
                      cases x <;> simp_all [pTrigThenFuse, headNotTrigFuse]
                    · intro x t2 hx
                      cases hx
                      simp [pTrigThenFuse]
                  · intro x t2 hx
                    cases hx
                    rcases hev with h | h <;> rw [h] <;> simp [pTrigThenFuse]
                · refine pairsOk_cons _ _ _ ?_ ?_
                  · refine pairsOk_cons _ _ _ ?_ ?_
                    · refine pairsOk_cons _ _ _ ih2 ?_
                      intro x t2 hx
                      cases x <;> simp_all [pFuseAfterTrig, headNotTrigFuse]
                    · intro x t2 hx
                      cases hx
                      simp [pFuseAfterTrig]
                  · intro x t2 hx
                    cases hx
                    rcases hev with h | h <;> rw [h] <;> simp [pFuseAfterTrig]
                · refine pairsOk_cons _ _ _ ?_ ?_
                  · refine pairsOk_cons _ _ _ ?_ ?_
                    · refine pairsOk_cons _ _ _ ih3 ?_
                      intro x t2 hx
                      cases x <;> simp_all [pResultThenTrig, headNotTrigFuse]
                    · intro x t2 hx
                      cases hx
                      simp [pResultThenTrig]
                  · intro x t2 hx
                    cases hx
                    rcases hev with h | h <;> rw [h] <;> simp [pResultThenTrig]
                · rcases hev with h | h <;> rw [h] <;> simp [countEv, ih4]
                · rcases hev with h | h <;> rw [h] <;> simp [headNotTrigFuse]

/-! ## Claims about the Advanced run -/

/-- Claim C9: under the burst trigger policy the run starts with exactly the
cold-start trigger (before any retrieval event), triggers and fusions pair
up one-to-one apart from that cold-start trigger, every per-bracket trigger
is sent immediately after the retrieval that completed the bracket and
immediately before that bracket's fusion, and the number of triggers is
exactly one more than the number of fused brackets. -/
theorem burst_trigger_discipline (N budget : Nat) (script : List RetrOutcome) :
    (advancedRun N budget script).trace.head? = some Ev.trig ∧
    pairsOk pTrigThenFuse (advancedRun N budget script).trace.tail = true ∧
    pairsOk pFuseAfterTrig (advancedRun N budget script).trace = true ∧
    pairsOk pResultThenTrig (advancedRun N budget script).trace = true ∧
    countEv Ev.trig (advancedRun N budget script).trace =
      countEv Ev.fuse (advancedRun N budget script).trace + 1 := by
  obtain ⟨h1, h2, h3, h4, h5⟩ := advLoop_trace_inv N script budget []
  refine ⟨rfl, ?_, ?_, ?_, ?_⟩
  · simpa [advancedRun] using h1
  · show pairsOk pFuseAfterTrig (Ev.trig :: (advLoop N budget script []).trace) = true
    refine pairsOk_cons _ _ _ h2 ?_
    intro x t2 hx
    cases x <;> simp_all [pFuseAfterTrig, headNotTrigFuse]
  · show pairsOk pResultThenTrig (Ev.trig :: (advLoop N budget script []).trace) = true
    refine pairsOk_cons _ _ _ h3 ?_
    intro x t2 hx
    cases x <;> simp_all [pResultThenTrig, headNotTrigFuse]
  · show countEv Ev.trig (Ev.trig :: (advLoop N budget script []).trace) =
      countEv Ev.fuse (Ev.trig :: (advLoop N budget script []).trace) + 1
    simp [countEv, h4]
    omega

/-- Everything before a timeout is processed normally; at the timeout the
loop stops with exit code 1, the error is reported, everything after the
timeout is ignored, and the fused outputs are exactly the brackets
completed before the timeout. -/
lemma advLoop_timeout (N : Nat) (rest1 rest2 : List RetrOutcome) :
    ∀ (pre : List RetrOutcome) (budget : Nat) (images : List Image),
      RetrOutcome.timeout ∉ pre → pre.length < budget →
      (advLoop N budget (pre ++ RetrOutcome.timeout :: rest1) images).exitCode = 1 ∧
      (advLoop N budget (pre ++ RetrOutcome.timeout :: rest1) images).errorReported = true ∧
      (advLoop N budget (pre ++ RetrOutcome.timeout :: rest1) images).fused =
        (runIngestAux N (grabsOf pre) images).2.map CreateHDR ∧
      advLoop N budget (pre ++ RetrOutcome.timeout :: rest1) images =
        advLoop N budget (pre ++ RetrOutcome.timeout :: rest2) images := by
  intro pre
  induction pre with
  | nil =>
      intro budget images _ h2
      cases budget with
      | zero => omega
      | succ b => simp [advLoop, runIngestAux, grabsOf]
  | cons o pre2 ih =>
      intro budget images h1 h2
      cases o with
      | timeout => simp at h1
      | res g =>
          cases budget with
          | zero => simp at h2
          | succ b =>
              have hne : RetrOutcome.timeout ∉ pre2 := by
                intro hc
                exact h1 (List.mem_cons_of_mem _ hc)
              have hlen : pre2.length < b := by
                simp only [List.length_cons] at h2
                omega
              obtain ⟨ihA, ihB, ihC, ihD⟩ := ih b (ingest N images g).1 hne hlen
              have hunf1 : advLoop N (b + 1)
                    ((RetrOutcome.res g :: pre2) ++ RetrOutcome.timeout :: rest1) images =
                  advStepResult (evOf g) (ingest N images g).2
                    (advLoop N b (pre2 ++ RetrOutcome.timeout :: rest1)
                      (ingest N images g).1) := rfl
              have hunf2 : advLoop N (b + 1)
                    ((RetrOutcome.res g :: pre2) ++ RetrOutcome.timeout :: rest2) images =
                  advStepResult (evOf g) (ingest N images g).2
                    (advLoop N b (pre2 ++ RetrOutcome.timeout :: rest2)
                      (ingest N images g).1) := rfl
              have hri : runIngestAux N (grabsOf (RetrOutcome.res g :: pre2)) images =
                  ((runIngestAux N (grabsOf pre2) (ingest N images g).1).1,
                   match (ingest N images g).2 with
                   | some br => br :: (runIngestAux N (grabsOf pre2) (ingest N images g).1).2
                   | none => (runIngestAux N (grabsOf pre2) (ingest N images g).1).2) := rfl
              rcases hp : (ingest N images g).2 with _ | br
              · rw [hunf1, hunf2]
                simp only [advStepResult, hp]
                exact ⟨ihA, ihB, by rw [ihC, hri]; simp [hp], by rw [ihD]⟩
              · rw [hunf1, hunf2]
                simp only [advStepResult, hp]
                exact ⟨ihA, ihB, by rw [hri]; simp [hp, ihC], by rw [ihD]⟩

/-- Claim C5: a retrieval timeout is fatal for the run: it is never retried
silently - everything scripted after the timeout is ignored, so acquisition
stops and no further brackets are produced - the error description is
reported, the process exit code is 1 (non-zero), and the fused outputs are
exactly the brackets completed before the timeout. -/
theorem timeout_fatal (N budget : Nat) (pre rest1 rest2 : List RetrOutcome)
    (h1 : RetrOutcome.timeout ∉ pre) (h2 : pre.length < budget) :
    (advancedRun N budget (pre ++ RetrOutcome.timeout :: rest1)).exitCode = 1 ∧
    (advancedRun N budget (pre ++ RetrOutcome.timeout :: rest1)).errorReported = true ∧
    (advancedRun N budget (pre ++ RetrOutcome.timeout :: rest1)).fused =
      (runIngestAux N (grabsOf pre) []).2.map CreateHDR ∧
    advancedRun N budget (pre ++ RetrOutcome.timeout :: rest1) =
      advancedRun N budget (pre ++ RetrOutcome.timeout :: rest2) := by
  obtain ⟨ha, hb, hc, hd⟩ := advLoop_timeout N rest1 rest2 pre budget [] h1 h2
  refine ⟨ha, hb, hc, ?_⟩
  simp only [advancedRun, hd]

/-- Witness for C5: one successful frame, then a timeout, then a further
scripted frame that is never reached, with N = 3 and budget 3. -/
theorem timeout_fatal_witness :
    (RetrOutcome.timeout ∉ [RetrOutcome.res (GrabRes.ok testImgA)]) ∧
    ([RetrOutcome.res (GrabRes.ok testImgA)].length < 3) ∧
    ((advancedRun 3 3 ([RetrOutcome.res (GrabRes.ok testImgA)] ++
        RetrOutcome.timeout :: [RetrOutcome.res (GrabRes.ok testImgB)])).exitCode = 1 ∧
     (advancedRun 3 3 ([RetrOutcome.res (GrabRes.ok testImgA)] ++
        RetrOutcome.timeout :: [RetrOutcome.res (GrabRes.ok testImgB)])).errorReported = true ∧
     (advancedRun 3 3 ([RetrOutcome.res (GrabRes.ok testImgA)] ++
        RetrOutcome.timeout :: [RetrOutcome.res (GrabRes.ok testImgB)])).fused =
       (runIngestAux 3 (grabsOf [RetrOutcome.res (GrabRes.ok testImgA)]) []).2.map CreateHDR ∧
     advancedRun 3 3 ([RetrOutcome.res (GrabRes.ok testImgA)] ++
        RetrOutcome.timeout :: [RetrOutcome.res (GrabRes.ok testImgB)]) =
       advancedRun 3 3 ([RetrOutcome.res (GrabRes.ok testImgA)] ++
        RetrOutcome.timeout :: [])) :=
  ⟨by decide, by decide,
   timeout_fatal 3 3 [RetrOutcome.res (GrabRes.ok testImgA)]
     [RetrOutcome.res (GrabRes.ok testImgB)] [] (by decide) (by decide)⟩

/-! ## Claims about the fusion engine -/

lemma convertToBGR8_width (img : Image) : (convertToBGR8 img).width = img.width := by
  cases hf : img.pixelFormat <;> simp [convertToBGR8, hf]

lemma convertToBGR8_height (img : Image) : (convertToBGR8 img).height = img.height := by
  cases hf : img.pixelFormat <;> simp [convertToBGR8, hf]

/-- Claim C7 counterexample: CreateHDR applied to a single-frame bracket
(fewer than 2 frames) produces a fused image - here even reproducing the
lone frame - and applied to a bracket of two frames with different widths
it also produces a fused image; it never fails with FusionError, because
the source contains no bracket-size or homogeneity validation at all. -/
theorem fuse_no_validation_counterexample :
    CreateHDR [testImgA] = testImgA ∧
    CreateHDR [testImgA, { width := 2, height := 1, pixelFormat := PixFmt.BGR8,
                           data := [10, 20, 30, 40, 50, 60] }] =
      { width := 1, height := 1, pixelFormat := PixFmt.BGR8, data := [9, 103, 30] } := by
  decide

/-- Claim C7 amended: CreateHDR has no FusionError path and performs no
validation: for every bracket - including single-frame brackets and
brackets whose frames disagree in dimensions or pixel format - it
unconditionally converts the frames and invokes the fusion collaborator,
producing an output whose geometry follows the bracket's first frame and
whose format is BGR8. -/
theorem fuse_never_fails (images : List Image) :
    (CreateHDR images).pixelFormat = PixFmt.BGR8 ∧
    (CreateHDR images).width = (images.head?.map Image.width).getD 0 ∧
    (CreateHDR images).height = (images.head?.map Image.height).getD 0 ∧
    (CreateHDR images).data.length =
      (images.head?.map (fun h => (convertToBGR8 h).data.length)).getD 0 := by
  cases images with
  | nil => simp [CreateHDR, mergeMertensProcess]
  | cons h t =>
      refine ⟨?_, ?_, ?_, ?_⟩ <;>
        simp [CreateHDR, mergeMertensProcess, convertToBGR8_width, convertToBGR8_height]

/-- Claim C8: the fusion stage is deterministic.  In the source, CreateHDR
constructs its converter and MergeMertens engine afresh with a fixed
configuration on every call and the AlignMTB registration call is commented
out (the alignment flag is constantly disabled), so the fused output is a
pure function of the input bracket alone: equal brackets give equal - in
particular byte-identical - outputs on repeated calls. -/
theorem fuse_deterministic (imgs1 imgs2 : List Image) (h : imgs1 = imgs2) :
    CreateHDR imgs1 = CreateHDR imgs2 ∧
    (CreateHDR imgs1).data = (CreateHDR imgs2).data := by
  rw [h]
  exact ⟨rfl, rfl⟩

/-- Witness for C8 on a concrete two-frame bracket. -/
theorem fuse_deterministic_witness :
    ([testImgA, testImgB] = [testImgA, testImgB]) ∧
    (CreateHDR [testImgA, testImgB] = CreateHDR [testImgA, testImgB] ∧
     (CreateHDR [testImgA, testImgB]).data = (CreateHDR [testImgA, testImgB]).data) :=
  ⟨rfl, fuse_deterministic [testImgA, testImgB] [testImgA, testImgB] rfl⟩

/-! ## The Simple grab loop (Simple sample lines 107-229)

The Simple sample uses the pipelined single-shot policy: one software
trigger exposes exactly one frame.  Inside the loop, a new exposure time is
written and a new trigger is sent ONLY in the branch handling a successful
grab result (lines 159-176); the failed branch (lines 189-193) only prints
the error.  To close the loop we model the device collaborator from the
spec (section 6): each software trigger queues exactly one exposure, and
the blocking retrieve delivers the next planned grab result while at least
one exposure is pending, timing out otherwise (which throws, is caught at
the bottom of main, and gives exit code 1). -/

/-- Result of a run of the Simple sample.  `delivered` counts retrieved
grab results, `expLog` records every ExposureTime.SetValue call in
execution order. -/
structure SimpleResult where
  exitCode : Nat
  errorReported : Bool
  fused : List Image
  delivered : Nat
  expLog : List ℚ
  trace : List Ev
deriving DecidableEq

/-- One successful iteration's result (lines 159-187 followed by the
completion check at lines 195-227): the exposure write and the re-trigger
happen before the image is stored, and fusion happens inline on
completion. -/
def simpleStepResult (comp : Option (List Image)) (expSet : ℚ) (r : SimpleResult) :
    SimpleResult :=
  match comp with
  | some br =>
      { exitCode := r.exitCode, errorReported := r.errorReported,
        fused := CreateHDR br :: r.fused, delivered := r.delivered + 1,
        expLog := expSet :: r.expLog,
        trace := Ev.grab :: Ev.trig :: Ev.fuse :: r.trace }
  | none =>
      { exitCode := r.exitCode, errorReported := r.errorReported,
        fused := r.fused, delivered := r.delivered + 1,
        expLog := expSet :: r.expLog,
        trace := Ev.grab :: Ev.trig :: r.trace }

/-- One failed iteration's result (lines 189-193 followed by the completion
check): no exposure write, no trigger. -/
def simpleFailResult (comp : Option (List Image)) (r : SimpleResult) : SimpleResult :=
  match comp with
  | some br =>
      { exitCode := r.exitCode, errorReported := r.errorReported,
        fused := CreateHDR br :: r.fused, delivered := r.delivered + 1,
        expLog := r.expLog, trace := Ev.fail :: Ev.fuse :: r.trace }
  | none =>
      { exitCode := r.exitCode, errorReported := r.errorReported,
        fused := r.fused, delivered := r.delivered + 1,
        expLog := r.expLog, trace := Ev.fail :: r.trace }

/-- The Simple grab loop in closed loop with the device.  `budget` is the
remaining grab budget, `plan` the device's planned per-frame outcomes,
`pending` the number of triggered but not yet retrieved exposures,
`exposure` the camera's ExposureTime register, `images` the active bracket.
With nothing pending (or nothing further planned) RetrieveResult times out
and throws.  On success, imageCounter equals images.length + 1 after the
increment: if it differs from c_imagesPerHDR the register is stepped by the
increment, otherwise it is reset to the low bound; either way exactly one
trigger is sent (lines 163-176). -/
def simpleLoop (N : Nat) (low inc : ℚ) :
    Nat → List GrabRes → Nat → ℚ → List Image → SimpleResult
  | 0, _, _, _, _ =>
      { exitCode := 0, errorReported := false, fused := [], delivered := 0,
        expLog := [], trace := [] }
  | b + 1, plan, pending, exposure, images =>
      if pending = 0 then
        { exitCode := 1, errorReported := true, fused := [], delivered := 0,
          expLog := [], trace := [Ev.tmo] }
      else
        match plan with
        | [] =>
            { exitCode := 1, errorReported := true, fused := [], delivered := 0,
              expLog := [], trace := [Ev.tmo] }
        | GrabRes.ok f :: plan2 =>
            -- retrieval consumes one pending exposure; the success branch
            -- immediately retriggers, so one is pending again
            simpleStepResult (ingest N images (GrabRes.ok f)).2
              (if images.length + 1 = N then low else exposure + inc)
              (simpleLoop N low inc b plan2 (pending - 1 + 1)
                (if images.length + 1 = N then low else exposure + inc)
                (ingest N images (GrabRes.ok f)).1)
        | GrabRes.err e :: plan2 =>
            simpleFailResult (ingest N images (GrabRes.err e)).2
              (simpleLoop N low inc b plan2 (pending - 1) exposure
                (ingest N images (GrabRes.err e)).1)

/-- A full run of the Simple sample: ExposureTime.SetValue(low) during
setup (line 112), StartGrabbing, the kickoff trigger (line 150), then the
grab loop with one pending exposure. -/
def simpleRun (N : Nat) (low inc : ℚ) (budget : Nat) (plan : List GrabRes) :
    SimpleResult :=
  let r := simpleLoop N low inc budget plan 1 low []
  { r with trace := Ev.trig :: r.trace, expLog := low :: r.expLog }

/-- A trace ends with the timeout event. -/
def endsTmo : List Ev → Bool
  | [] => false
  | [Ev.tmo] => true
  | [_] => false
  | _ :: t => endsTmo t

lemma endsTmo_cons (x : Ev) (t : List Ev) (h : endsTmo t = true) :
    endsTmo (x :: t) = true := by
  cases t with
  | nil => simp [endsTmo] at h
  | cons y t2 => cases x <;> simpa [endsTmo] using h

lemma ingest_fst_length_lt {N : Nat} {images : List Image} (h : images.length < N)
    (g : GrabRes) : (ingest N images g).1.length < N := by
  have hp : (ingestPush images g).length ≤ images.length + 1 := by
    cases g <;> simp [ingestPush]
  by_cases hc : (ingestPush images g).length = N
  · simp only [ingest, if_pos hc]
    simp only [List.length_nil]
    omega
  · simp only [ingest, if_neg hc]
    omega

/-- After any run prefix of successful frames followed by one failed frame,
the Simple loop's device queue is drained: the failed iteration issues no
trigger and writes no exposure, the next retrieval times out, the run exits
with code 1, and nothing scripted after the failure is ever delivered. -/
lemma simpleLoop_fail_aux (N : Nat) (low inc : ℚ) (e : Nat) (rest1 rest2 : List GrabRes) :
    ∀ (pre : List GrabRes) (budget : Nat) (exposure : ℚ) (images : List Image),
      (∀ g ∈ pre, ∃ f, g = GrabRes.ok f) → pre.length + 1 < budget →
      images.length < N →
      (simpleLoop N low inc budget (pre ++ GrabRes.err e :: rest1) 1 exposure images).exitCode = 1 ∧
      (simpleLoop N low inc budget (pre ++ GrabRes.err e :: rest1) 1 exposure images).errorReported = true ∧
      (simpleLoop N low inc budget (pre ++ GrabRes.err e :: rest1) 1 exposure images).delivered = pre.length + 1 ∧
      countEv Ev.trig (simpleLoop N low inc budget (pre ++ GrabRes.err e :: rest1) 1 exposure images).trace = pre.length ∧
      (simpleLoop N low inc budget (pre ++ GrabRes.err e :: rest1) 1 exposure images).expLog.length = pre.length ∧
      endsTmo (simpleLoop N low inc budget (pre ++ GrabRes.err e :: rest1) 1 exposure images).trace = true ∧
      simpleLoop N low inc budget (pre ++ GrabRes.err e :: rest1) 1 exposure images =
        simpleLoop N low inc budget (pre ++ GrabRes.err e :: rest2) 1 exposure images := by
  intro pre
  induction pre with
  | nil =>
      intro budget exposure images _ hb hlen
      cases budget with
      | zero => omega
      | succ b =>
          cases b with
          | zero => omega
          | succ b2 =>
              have hing : ingest N images (GrabRes.err e) = (images, none) :=
                ingest_err_of_lt hlen e
              have hunf1 : simpleLoop N low inc (b2 + 1 + 1)
                    (([] : List GrabRes) ++ GrabRes.err e :: rest1) 1 exposure images =
                  simpleFailResult (ingest N images (GrabRes.err e)).2
                    (simpleLoop N low inc (b2 + 1) rest1 0 exposure
                      (ingest N images (GrabRes.err e)).1) := rfl
              have hunf2 : simpleLoop N low inc (b2 + 1 + 1)
                    (([] : List GrabRes) ++ GrabRes.err e :: rest2) 1 exposure images =
                  simpleFailResult (ingest N images (GrabRes.err e)).2
                    (simpleLoop N low inc (b2 + 1) rest2 0 exposure
                      (ingest N images (GrabRes.err e)).1) := rfl
              have htmo1 : ∀ (p : List GrabRes) (imgs : List Image),
                  simpleLoop N low inc (b2 + 1) p 0 exposure imgs =
                    { exitCode := 1, errorReported := true, fused := [], delivered := 0,
                      expLog := [], trace := [Ev.tmo] } := fun _ _ => rfl
              rw [hunf1, hunf2, hing]
              simp [simpleFailResult, countEv, endsTmo, htmo1]
  | cons g pre2 ih =>
      intro budget exposure images hpre hb hlen
      obtain ⟨f, rfl⟩ := hpre g (List.mem_cons_self g pre2)
      cases budget with
      | zero => omega
      | succ b =>
          have hpre2 : ∀ x ∈ pre2, ∃ f2, x = GrabRes.ok f2 := fun x hx =>
            hpre x (List.mem_cons_of_mem _ hx)
          have hb2 : pre2.length + 1 < b := by
            simp only [List.length_cons] at hb
            omega
          have hlen2 : (ingest N images (GrabRes.ok f)).1.length < N :=
            ingest_fst_length_lt hlen _
          obtain ⟨ihA, ihB, ihC, ihD, ihE, ihF, ihG⟩ :=
            ih b (if images.length + 1 = N then low else exposure + inc)
              (ingest N images (GrabRes.ok f)).1 hpre2 hb2 hlen2
          have hunf1 : simpleLoop N low inc (b + 1)
                ((GrabRes.ok f :: pre2) ++ GrabRes.err e :: rest1) 1 exposure images =
              simpleStepResult (ingest N images (GrabRes.ok f)).2
                (if images.length + 1 = N then low else exposure + inc)
                (simpleLoop N low inc b (pre2 ++ GrabRes.err e :: rest1) 1
                  (if images.length + 1 = N then low else exposure + inc)
                  (ingest N images (GrabRes.ok f)).1) := rfl
          have hunf2 : simpleLoop N low inc (b + 1)
                ((GrabRes.ok f :: pre2) ++ GrabRes.err e :: rest2) 1 exposure images =
              simpleStepResult (ingest N images (GrabRes.ok f)).2
                (if images.length + 1 = N then low else exposure + inc)
                (simpleLoop N low inc b (pre2 ++ GrabRes.err e :: rest2) 1
                  (if images.length + 1 = N then low else exposure + inc)
                  (ingest N images (GrabRes.ok f)).1) := rfl
          rcases hp : (ingest N images (GrabRes.ok f)).2 with _ | br
          · rw [hunf1, hunf2]
            simp only [simpleStepResult, hp]
            refine ⟨ihA, ihB, ?_, ?_, ?_, ?_, ?_⟩
            · simp only [List.length_cons]
              omega
            · simp [countEv, ihD, Nat.add_comm]
            · simp [ihE]
            · exact endsTmo_cons _ _ (endsTmo_cons _ _ ihF)
            · rw [ihG]
          · rw [hunf1, hunf2]
            simp only [simpleStepResult, hp]
            refine ⟨ihA, ihB, ?_, ?_, ?_, ?_, ?_⟩
            · simp only [List.length_cons]
              omega
            · simp [countEv, ihD, Nat.add_comm]
            · simp [ihE]
            · exact endsTmo_cons _ _ (endsTmo_cons _ _ (endsTmo_cons _ _ ihF))
            · rw [ihG]

/-- Claim C10: in the Simple (pipelined single-shot) variant, a trigger and
an exposure write are issued only in the successful-grab branch: the failed
branch changes neither the exposure log nor the trigger count.  Hence after
a run prefix of successes followed by one failed frame no exposure is ever
pending again: nothing scripted after the failure is delivered, the next
retrieval times out, and the run ends with exit code 1; the trigger count is
the kickoff plus one per successful retrieval (none for the failure), and
the exposure log is the setup write plus one write per successful
retrieval. -/
theorem simple_failed_frame_stalls (N budget : Nat) (low inc : ℚ)
    (pre rest1 rest2 : List GrabRes) (e : Nat)
    (hpre : ∀ g ∈ pre, ∃ f, g = GrabRes.ok f)
    (hb : pre.length + 1 < budget) (hN : 0 < N) :
    (∀ (comp : Option (List Image)) (r : SimpleResult),
        (simpleFailResult comp r).expLog = r.expLog ∧
        countEv Ev.trig (simpleFailResult comp r).trace = countEv Ev.trig r.trace) ∧
    (simpleRun N low inc budget (pre ++ GrabRes.err e :: rest1)).exitCode = 1 ∧
    (simpleRun N low inc budget (pre ++ GrabRes.err e :: rest1)).errorReported = true ∧
    (simpleRun N low inc budget (pre ++ GrabRes.err e :: rest1)).delivered = pre.length + 1 ∧
    countEv Ev.trig (simpleRun N low inc budget (pre ++ GrabRes.err e :: rest1)).trace =
      pre.length + 1 ∧
    (simpleRun N low inc budget (pre ++ GrabRes.err e :: rest1)).expLog.length =
      pre.length + 1 ∧
    endsTmo (simpleRun N low inc budget (pre ++ GrabRes.err e :: rest1)).trace = true ∧
    simpleRun N low inc budget (pre ++ GrabRes.err e :: rest1) =
      simpleRun N low inc budget (pre ++ GrabRes.err e :: rest2) := by
  obtain ⟨hA, hB, hC, hD, hE, hF, hG⟩ :=
    simpleLoop_fail_aux N low inc e rest1 rest2 pre budget low []
      hpre hb (by simpa using hN)
  refine ⟨?_, hA, hB, ?_, ?_, ?_, ?_, ?_⟩
  · intro comp r
    cases comp <;> simp [simpleFailResult, countEv]
  · simpa [simpleRun] using hC
  · simp only [simpleRun, countEv]
    simp [hD, Nat.add_comm]
  · simp only [simpleRun]
    simp [hE]
  · simp only [simpleRun]
    exact endsTmo_cons _ _ hF
  · simp only [simpleRun, hG]

/-- Witness for C10: empty success prefix, one failed frame, one further
planned frame that is never delivered; N = 3, budget 3, the sample's
exposure constants. -/
theorem simple_failed_frame_stalls_witness :
    (∀ g ∈ ([] : List GrabRes), ∃ f, g = GrabRes.ok f) ∧
    (([] : List GrabRes).length + 1 < 3) ∧ (0 < 3) ∧
    ((∀ (comp : Option (List Image)) (r : SimpleResult),
        (simpleFailResult comp r).expLog = r.expLog ∧
        countEv Ev.trig (simpleFailResult comp r).trace = countEv Ev.trig r.trace) ∧
     (simpleRun 3 c_lowExposureTime
        ((c_highExposureTime - c_lowExposureTime) / (c_imagesPerHDR : ℚ)) 3
        ([] ++ GrabRes.err 7 :: [GrabRes.ok testImgB])).exitCode = 1 ∧
     (simpleRun 3 c_lowExposureTime
        ((c_highExposureTime - c_lowExposureTime) / (c_imagesPerHDR : ℚ)) 3
        ([] ++ GrabRes.err 7 :: [GrabRes.ok testImgB])).errorReported = true ∧
     (simpleRun 3 c_lowExposureTime
        ((c_highExposureTime - c_lowExposureTime) / (c_imagesPerHDR : ℚ)) 3
        ([] ++ GrabRes.err 7 :: [GrabRes.ok testImgB])).delivered =
       ([] : List GrabRes).length + 1 ∧
     countEv Ev.trig (simpleRun 3 c_lowExposureTime
        ((c_highExposureTime - c_lowExposureTime) / (c_imagesPerHDR : ℚ)) 3
        ([] ++ GrabRes.err 7 :: [GrabRes.ok testImgB])).trace =
       ([] : List GrabRes).length + 1 ∧
     (simpleRun 3 c_lowExposureTime
        ((c_highExposureTime - c_lowExposureTime) / (c_imagesPerHDR : ℚ)) 3
        ([] ++ GrabRes.err 7 :: [GrabRes.ok testImgB])).expLog.length =
       ([] : List GrabRes).length + 1 ∧
     endsTmo (simpleRun 3 c_lowExposureTime
        ((c_highExposureTime - c_lowExposureTime) / (c_imagesPerHDR : ℚ)) 3
        ([] ++ GrabRes.err 7 :: [GrabRes.ok testImgB])).trace = true ∧
     simpleRun 3 c_lowExposureTime
        ((c_highExposureTime - c_lowExposureTime) / (c_imagesPerHDR : ℚ)) 3
        ([] ++ GrabRes.err 7 :: [GrabRes.ok testImgB]) =
       simpleRun 3 c_lowExposureTime
        ((c_highExposureTime - c_lowExposureTime) / (c_imagesPerHDR : ℚ)) 3
        ([] ++ GrabRes.err 7 :: [])) :=
  ⟨by simp, by decide, by decide,
   simple_failed_frame_stalls 3 3 c_lowExposureTime
     ((c_highExposureTime - c_lowExposureTime) / (c_imagesPerHDR : ℚ))
     [] [GrabRes.ok testImgB] [] 7 (by simp) (by decide) (by decide)⟩

end HDR
